import Mathlib

/-!
Verification development for the CitySetu backend (blob-store variant,
`workers.json` source file).  The Express route handlers and the GitHub
file-store helpers are shallowly embedded: JavaScript objects become
association lists with JS property-order semantics, the remote store
becomes an explicit state (path to document content and content hash),
and each route handler becomes a pure state-passing function that also
reports the store operations it performed.
-/

/-- Records are JS objects: association lists from field name to string
value, in property insertion order. -/
abbrev Rec := List (String × String)

/-- Reading a property of a JS object (first occurrence; a well-formed
object has unique keys). -/
def getField (o : Rec) (k : String) : Option String :=
  (o.find? (fun p => p.1 == k)).map Prod.snd

/-- Assignment `o[k] = v` with JS semantics: an existing key keeps its
position and is overwritten, a new key is appended at the end. -/
def setField : Rec → String → String → Rec
  | [], k, v => [(k, v)]
  | p :: tl, k, v => if p.1 == k then (k, v) :: tl else p :: setField tl k v

/-- Spread `\x7b...base, ...src\x7d`: each property of `src` is assigned
into `base` in order. -/
def spreadInto (base src : Rec) : Rec :=
  src.foldl (fun acc p => setField acc p.1 p.2) base

/-- Key uniqueness: the invariant enjoyed by every object produced by
JSON parsing or object literals. -/
def keysNodup (o : Rec) : Prop :=
  (o.map Prod.fst).Nodup

instance (o : Rec) : Decidable (keysNodup o) := by
  unfold keysNodup; infer_instance

/-- Embedding of `addTimestamp`: spreads the data then assigns the
`timestamp` property, `now` standing for `new Date().toISOString()`. -/
def addTimestamp (data : Rec) (now : String) : Rec :=
  setField data "timestamp" now

/-- The nanoid alphabet from `generateId`. -/
def alphabetChars : List Char := "0123456789ABCDEFGHIJKLMNOPQRSTUVWXYZ".data

/-- One six-character nanoid draw; the randomness is the explicit input
`ds`, one alphabet index per position. -/
def codeOfDigits (ds : Fin 6 → Fin 36) : String :=
  String.mk ((List.finRange 6).map
    (fun i => alphabetChars.get (Fin.cast (by decide) (ds i))))

/-- ASCII uppercase of one character (what `toUpperCase` does on the
prefixes used here). -/
def asciiToUpper (c : Char) : Char :=
  if 'a' ≤ c ∧ c ≤ 'z' then Char.ofNat (c.toNat - 32) else c

/-- JS `String.prototype.toUpperCase` restricted to ASCII. -/
def toUpperStr (s : String) : String := String.mk (s.data.map asciiToUpper)

/-- JS `String.prototype.startsWith`, evaluated on the character list. -/
def strStartsWith (s pre : String) : Bool :=
  pre.data.isPrefixOf s.data

/-- Embedding of `generateId`: uppercased prefix, hyphen, six characters
from the alphabet. -/
def generateId (pfx : String) (ds : Fin 6 → Fin 36) : String :=
  toUpperStr pfx ++ "-" ++ codeOfDigits ds

/-- An axios failure: either an HTTP error response with a status, or a
failure with no response at all (network, timeout). -/
inductive AxiosError where
  | http (status : Nat)
  | network
deriving DecidableEq

/-- Outcome of the remote GET performed by `getFileFromRepo`. -/
inductive FetchOutcome where
  | success (recs : List Rec) (sha : String)
  | failure (e : AxiosError)
deriving DecidableEq

/-- The test `error.response && error.response.status === 404` from the
catch block of `getFileFromRepo`. -/
def is404 : AxiosError → Bool
  | .http s => s == 404
  | .network => false

/-- Embedding of `getFileFromRepo`: on success the parsed records and
the sha; a 404 failure is converted to the empty bootstrap state; every
other failure is re-thrown. -/
def getFileFromRepo (o : FetchOutcome) : Except AxiosError (List Rec × Option String) :=
  match o with
  | .success recs sha => .ok (recs, some sha)
  | .failure e => if is404 e then .ok ([], none) else .error e

/-- One stored document: its decoded record array and its content hash. -/
structure StoreDoc where
  recs : List Rec
  sha : String
deriving DecidableEq

/-- The remote repository: path to document, absent when the file has
never been created. -/
abbrev Store := String → Option StoreDoc

/-- The store after a commit to one path. -/
def setStore (st : Store) (p : String) (d : StoreDoc) : Store :=
  fun q => if q = p then some d else st q

/-- Reading the current store state, as `getFileFromRepo` surfaces it
when the fetch itself does not fail: content plus sha for an existing
document, empty array and absent sha for a missing one. -/
def readStore (st : Store) (p : String) : List Rec × Option String :=
  match st p with
  | some d => (d.recs, some d.sha)
  | none => ([], none)

/-- Result of a conditional commit. -/
inductive WriteResult where
  | ok (st : Store)
  | conflict

/-- Embedding of `updateFileInRepo` plus the conditional-write check the
remote store performs on the supplied sha: an absent sha creates a new
document (rejected if one exists), a present sha must match the current
content hash, otherwise the write is rejected.  `newSha` is the content
hash of the committed document. -/
def updateFileInRepo (st : Store) (filePath : String) (newData : List Rec)
    (sha : Option String) (newSha : String) : WriteResult :=
  match st filePath, sha with
  | none, none => .ok (setStore st filePath ⟨newData, newSha⟩)
  | none, some _ => .conflict
  | some _, none => .conflict
  | some d, some s => if s = d.sha then .ok (setStore st filePath ⟨newData, newSha⟩) else .conflict

/-- A store operation performed by a handler, in order. -/
inductive Eff where
  | read (path : String)
  | write (path : String)
deriving DecidableEq

/-- Response bodies the embedded routes produce. -/
inductive RespBody where
  | record (r : Rec)
  | message (m : String)
deriving DecidableEq

/-- An HTTP response: status code and JSON body. -/
structure Response where
  status : Nat
  body : RespBody
deriving DecidableEq

def chatsPath : String := "data/chats.json"

def signupsPath : String := "data/signups.json"

/-- The object literal built by `POST /api/chats`: generated id, spread
of the timestamped body, then `status` and `workerAssigned`. -/
def mkChatBooking (body : Rec) (gen now : String) : Rec :=
  setField (setField (spreadInto [("id", gen)] (addTimestamp body now))
    "status" "Pending") "workerAssigned" ""

/-- The `POST /api/chats` handler with the store possibly modified by a
concurrent writer between the read and the write: the read sees
`stRead`, the conditional write is validated against `stWrite`.  Any
rejected write is caught and answered with a 500; there is no retry. -/
def postChatsRaced (stRead stWrite : Store) (body : Rec) (ds : Fin 6 → Fin 36)
    (now newSha : String) : Response × Store × List Eff :=
  let data := (readStore stRead chatsPath).1
  let sha := (readStore stRead chatsPath).2
  let newBooking := mkChatBooking body (generateId "CHAT" ds) now
  match updateFileInRepo stWrite chatsPath (data ++ [newBooking]) sha newSha with
  | .ok st' => (⟨201, .record newBooking⟩, st', [.read chatsPath, .write chatsPath])
  | .conflict => (⟨500, .message "Error creating booking"⟩, stWrite, [.read chatsPath, .write chatsPath])

/-- The `POST /api/chats` handler run without interference. -/
def postChats (st : Store) (body : Rec) (ds : Fin 6 → Fin 36)
    (now newSha : String) : Response × Store × List Eff :=
  postChatsRaced st st body ds now newSha

/-- The object literal built by `POST /api/signups`: generated id,
spread of the timestamped body, then `status`. -/
def mkSignup (body : Rec) (gen now : String) : Rec :=
  setField (spreadInto [("id", gen)] (addTimestamp body now)) "status" "Pending Review"

/-- The `POST /api/signups` handler run without interference. -/
def postSignups (st : Store) (body : Rec) (ds : Fin 6 → Fin 36)
    (now newSha : String) : Response × Store × List Eff :=
  let data := (readStore st signupsPath).1
  let sha := (readStore st signupsPath).2
  let newSignup := mkSignup body (generateId "SIGNUP" ds) now
  match updateFileInRepo st signupsPath (data ++ [newSignup]) sha newSha with
  | .ok st' => (⟨201, .record newSignup⟩, st', [.read signupsPath, .write signupsPath])
  | .conflict => (⟨500, .message "Error creating signup"⟩, st, [.read signupsPath, .write signupsPath])

/-- JS `Array.prototype.findIndex`, index accumulator made explicit. -/
def findIndexFrom (pr : Rec → Bool) : List Rec → Nat → Option Nat
  | [], _ => none
  | r :: tl, i => if pr r then some i else findIndexFrom pr tl (i + 1)

/-- JS `findIndex` returning `none` for -1. -/
def jsFindIndex (pr : Rec → Bool) (l : List Rec) : Option Nat :=
  findIndexFrom pr l 0

/-- JS truthiness of a possibly-absent string: `undefined` and the empty
string are falsy. -/
def truthy : Option String → Bool
  | none => false
  | some s => s != ""

/-- The two guarded assignments of `PUT /api/update-status/:id`:
`if (status) ... ; if (workerAssigned) ...`. -/
def applyPatch (r : Rec) (status wA : Option String) : Rec :=
  let r1 := if truthy status then setField r "status" (status.getD "") else r
  if truthy wA then setField r1 "workerAssigned" (wA.getD "") else r1

/-- The body of `PUT /api/update-status/:id` once the file path has been
chosen: read, findIndex on the id, 404 when absent, otherwise patch in
place, write back, answer with the mutated element. -/
def updateStatusOn (st : Store) (fp id : String) (status wA : Option String)
    (newSha : String) : Response × Store × List Eff :=
  let data := (readStore st fp).1
  let sha := (readStore st fp).2
  match jsFindIndex (fun r => getField r "id" == some id) data with
  | none => (⟨404, .message "Item not found"⟩, st, [.read fp])
  | some i =>
    let data' := data.set i (applyPatch (data.getD i []) status wA)
    match updateFileInRepo st fp data' sha newSha with
    | .ok st' => (⟨200, .record (data'.getD i [])⟩, st', [.read fp, .write fp])
    | .conflict => (⟨500, .message "Error updating status"⟩, st, [.read fp, .write fp])

/-- Embedding of `PUT /api/update-status/:id`: dispatch on the id prefix
and reject every other prefix with a 400 before touching the store. -/
def updateStatus (st : Store) (id : String) (status wA : Option String)
    (newSha : String) : Response × Store × List Eff :=
  if strStartsWith id "CHAT-" then updateStatusOn st chatsPath id status wA newSha
  else if strStartsWith id "SIGNUP-" then updateStatusOn st signupsPath id status wA newSha
  else (⟨400, .message "Invalid ID prefix"⟩, st, [])

/-- The collection the route dispatches to, when any. -/
def dispatchPath (id : String) : Option String :=
  if strStartsWith id "CHAT-" then some chatsPath
  else if strStartsWith id "SIGNUP-" then some signupsPath
  else none

/-- The read-only list path (`GET /api/workers`, `GET /api/admin/data`):
one fetch, no write, the decoded record array as result. -/
def listCollection (st : Store) (p : String) : List Rec × Store × List Eff :=
  ((readStore st p).1, st, [.read p])

/-! Concrete inputs used to evaluate the embedded handlers. -/

/-- The store with no document at all (nothing ever written). -/
def stEmpty : Store := fun _ => none

/-- A fixed randomness source: every draw picks alphabet index zero. -/
def ds0 : Fin 6 → Fin 36 := fun _ => 0

/-- Store holding an empty chats document at hash `shaA`, as the append
handler reads it. -/
def stChatsOne : Store :=
  fun q => if q = chatsPath then some ⟨[], "shaA"⟩ else none

/-- The same store after a concurrent writer committed another booking,
advancing the hash to `shaB`. -/
def stChatsRaced : Store :=
  fun q => if q = chatsPath then some ⟨[[("id", "CHAT-OTHER0")]], "shaB"⟩ else none

/-- A booking record stored under id `CHAT-AAAAAA`. -/
def recC6 : Rec :=
  [("id", "CHAT-AAAAAA"), ("customerName", "Asha"), ("status", "Pending"),
    ("workerAssigned", "")]

/-- Store whose chats collection holds exactly `recC6`. -/
def stC6 : Store :=
  fun q => if q = chatsPath then some ⟨[recC6], "s1"⟩ else none

/-- Two stores that agree on the chats document but nowhere else. -/
def stAgreeA : Store :=
  fun q => if q = chatsPath then some ⟨[recC6], "s1"⟩ else none

def stAgreeB : Store :=
  fun q => if q = chatsPath then some ⟨[recC6], "s1"⟩ else some ⟨[], "zz"⟩

/-- A request body that smuggles an `id` field. -/
def bodyEvil : Rec := [("id", "EVIL"), ("customerName", "Asha")]

/-- A well-formed chat booking request body. -/
def bodyAsha : Rec :=
  [("customerName", "Asha"), ("customerPhone", "9990001111"), ("service", "AC Repair")]

/-- A signup request body that smuggles an `id` field. -/
def bodyFake : Rec := [("id", "FAKE"), ("name", "Ravi")]

/-- A well-formed signup request body. -/
def bodyRavi : Rec := [("name", "Ravi"), ("phone", "8880001111"), ("service", "Electrician")]

/-! Lemmas about the object model. -/

theorem getField_cons_of_pos (p : String × String) (tl : Rec) (k : String)
    (h : (p.1 == k) = true) : getField (p :: tl) k = some p.2 := by
  simp [getField, List.find?, h]

theorem getField_cons_of_neg (p : String × String) (tl : Rec) (k : String)
    (h : ¬(p.1 == k) = true) : getField (p :: tl) k = getField tl k := by
  simp only [Bool.not_eq_true] at h
  simp [getField, List.find?, h]

theorem getField_setField_self (o : Rec) (k v : String) :
    getField (setField o k v) k = some v := by
  induction o with
  | nil => simp [setField, getField]
  | cons p tl ih =>
    by_cases h : p.1 == k
    · simp only [setField, if_pos h]
      exact getField_cons_of_pos (k, v) tl k (by simp)
    · simp only [setField, if_neg h]
      rw [getField_cons_of_neg p _ k h]
      exact ih

theorem getField_setField_ne (o : Rec) (k k' v : String) (h : k' ≠ k) :
    getField (setField o k v) k' = getField o k' := by
  have hkk : ¬(((k, v) : String × String).1 == k') = true := by
    simp [Ne.symm h]
  induction o with
  | nil =>
    simp only [setField]
    rw [getField_cons_of_neg _ _ _ hkk]
  | cons p tl ih =>
    by_cases hpk : p.1 == k
    · have hp : p.1 = k := by simpa using hpk
      have hpk' : ¬(p.1 == k') = true := by simp [hp, Ne.symm h]
      simp only [setField, if_pos hpk]
      rw [getField_cons_of_neg _ _ _ hkk, getField_cons_of_neg p tl k' hpk']
    · simp only [setField, if_neg hpk]
      by_cases hp' : p.1 == k'
      · rw [getField_cons_of_pos p _ k' hp', getField_cons_of_pos p tl k' hp']
      · rw [getField_cons_of_neg p _ k' hp', getField_cons_of_neg p tl k' hp']
        exact ih

theorem getField_eq_none_of_not_mem (o : Rec) (k : String)
    (h : k ∉ o.map Prod.fst) : getField o k = none := by
  induction o with
  | nil => rfl
  | cons p tl ih =>
    simp only [List.map_cons, List.mem_cons, not_or] at h
    have hp : ¬(p.1 == k) = true := by
      simp only [beq_iff_eq]
      intro hx
      exact h.1 hx.symm
    rw [getField_cons_of_neg p tl k hp]
    exact ih h.2

theorem mem_keys_setField (o : Rec) (k v k' : String)
    (h : k' ∈ (setField o k v).map Prod.fst) :
    k' = k ∨ k' ∈ o.map Prod.fst := by
  induction o with
  | nil =>
    simp only [setField, List.map_cons, List.map_nil, List.mem_singleton] at h
    exact Or.inl h
  | cons p tl ih =>
    by_cases hpk : p.1 == k
    · simp only [setField, if_pos hpk, List.map_cons, List.mem_cons] at h
      rcases h with h | h
      · exact Or.inl h
      · exact Or.inr (List.mem_cons_of_mem _ h)
    · simp only [setField, if_neg hpk, List.map_cons, List.mem_cons] at h
      rcases h with h | h
      · subst h
        exact Or.inr (by rw [List.map_cons]; exact List.mem_cons_self _ _)
      · rcases ih h with h' | h'
        · exact Or.inl h'
        · exact Or.inr (List.mem_cons_of_mem _ h')

theorem keysNodup_setField (o : Rec) (k v : String) (h : keysNodup o) :
    keysNodup (setField o k v) := by
  induction o with
  | nil => simp [setField, keysNodup]
  | cons p tl ih =>
    unfold keysNodup at h
    simp only [List.map_cons, List.nodup_cons] at h
    by_cases hpk : p.1 == k
    · have hp : p.1 = k := by simpa using hpk
      unfold keysNodup
      simp only [setField, if_pos hpk, List.map_cons, List.nodup_cons]
      exact ⟨by rw [← hp]; exact h.1, h.2⟩
    · unfold keysNodup
      simp only [setField, if_neg hpk, List.map_cons, List.nodup_cons]
      refine ⟨?_, ih h.2⟩
      intro hmem
      rcases mem_keys_setField tl k v p.1 hmem with h' | h'
      · exact hpk (by simp [h'])
      · exact h.1 h'

theorem spreadInto_cons (base : Rec) (q : String × String) (tl : Rec) :
    spreadInto base (q :: tl) = spreadInto (setField base q.1 q.2) tl := rfl

theorem getField_spreadInto_of_none (src : Rec) (k : String)
    (h : getField src k = none) :
    ∀ base : Rec, getField (spreadInto base src) k = getField base k := by
  induction src with
  | nil => intro base; rfl
  | cons q tl ih =>
    intro base
    by_cases hq : q.1 == k
    · rw [getField_cons_of_pos q tl k hq] at h
      exact absurd h (by simp)
    · rw [getField_cons_of_neg q tl k hq] at h
      have hne : k ≠ q.1 := fun hk' => hq (by simp [hk'])
      rw [spreadInto_cons, ih h, getField_setField_ne base q.1 k q.2 hne]

theorem getField_spreadInto_of_some (src : Rec) (k v : String)
    (hnd : keysNodup src) (h : getField src k = some v) :
    ∀ base : Rec, getField (spreadInto base src) k = some v := by
  induction src with
  | nil => simp [getField] at h
  | cons q tl ih =>
    intro base
    unfold keysNodup at hnd
    simp only [List.map_cons, List.nodup_cons] at hnd
    by_cases hq : q.1 == k
    · have hk : q.1 = k := by simpa using hq
      have hv : q.2 = v := by
        rw [getField_cons_of_pos q tl k hq] at h
        simpa using h
      have htl : getField tl k = none := by
        refine getField_eq_none_of_not_mem tl k ?_
        rw [← hk]; exact hnd.1
      rw [spreadInto_cons, getField_spreadInto_of_none tl k htl, ← hk, ← hv,
        getField_setField_self]
    · have htl : getField tl k = some v := by
        rwa [getField_cons_of_neg q tl k hq] at h
      rw [spreadInto_cons]
      exact ih hnd.2 htl (setField base q.1 q.2)

/-! Lemmas about findIndex, the store, and patch application. -/

theorem findIndexFrom_eq_none (pr : Rec → Bool) (l : List Rec)
    (h : ∀ r ∈ l, pr r = false) : ∀ i, findIndexFrom pr l i = none := by
  induction l with
  | nil => intro i; rfl
  | cons r tl ih =>
    intro i
    have hr : pr r = false := h r (List.mem_cons_self _ _)
    simp only [findIndexFrom, hr, Bool.false_eq_true, ite_false]
    exact ih (fun x hx => h x (List.mem_cons_of_mem _ hx)) (i + 1)

theorem jsFindIndex_eq_none (pr : Rec → Bool) (l : List Rec)
    (h : ∀ r ∈ l, pr r = false) : jsFindIndex pr l = none :=
  findIndexFrom_eq_none pr l h 0

theorem findIndexFrom_bound (pr : Rec → Bool) :
    ∀ (l : List Rec) (s j : Nat), findIndexFrom pr l s = some j →
      s ≤ j ∧ j - s < l.length := by
  intro l
  induction l with
  | nil => intro s j h; simp [findIndexFrom] at h
  | cons r tl ih =>
    intro s j h
    by_cases hr : pr r
    · simp only [findIndexFrom, hr, ite_true, Option.some.injEq] at h
      subst h
      constructor
      · exact Nat.le_refl _
      · simp
    · simp only [findIndexFrom, hr, Bool.false_eq_true, ite_false] at h
      have := ih (s + 1) j h
      constructor
      · omega
      · simp only [List.length_cons]
        omega

theorem jsFindIndex_lt_length (pr : Rec → Bool) (l : List Rec) (i : Nat)
    (h : jsFindIndex pr l = some i) : i < l.length := by
  have := findIndexFrom_bound pr l 0 i h
  omega

theorem setStore_ne (st : Store) (p : String) (d : StoreDoc) (q : String)
    (h : q ≠ p) : setStore st p d q = st q := by
  simp [setStore, h]

theorem readStore_setStore_self (st : Store) (p : String) (d : StoreDoc) :
    readStore (setStore st p d) p = (d.recs, some d.sha) := by
  simp [readStore, setStore]

theorem updateFileInRepo_current (st : Store) (p : String) (nd : List Rec)
    (ns : String) :
    updateFileInRepo st p nd (readStore st p).2 ns =
      .ok (setStore st p ⟨nd, ns⟩) := by
  cases h : st p with
  | none => simp [updateFileInRepo, readStore, h]
  | some d => simp [updateFileInRepo, readStore, h]

theorem getD_set_ne (l : List Rec) (a : Rec) (i j : Nat) (d : Rec)
    (h : j ≠ i) : (l.set i a).getD j d = l.getD j d := by
  simp [List.getD, List.getElem?_set_ne (Ne.symm h)]

theorem getD_set_self (l : List Rec) (a : Rec) (i : Nat) (d : Rec)
    (h : i < l.length) : (l.set i a).getD i d = a := by
  simp [List.getD, List.getElem?_set_eq_of_lt a h]

theorem getField_applyPatch_ne (r : Rec) (s w : Option String) (k : String)
    (h1 : k ≠ "status") (h2 : k ≠ "workerAssigned") :
    getField (applyPatch r s w) k = getField r k := by
  unfold applyPatch
  by_cases hs : truthy s <;> by_cases hw : truthy w <;>
    simp [hs, hw, getField_setField_ne _ _ _ _ h1, getField_setField_ne _ _ _ _ h2]

theorem getField_applyPatch_status_none (r : Rec) (w : Option String) :
    getField (applyPatch r none w) "status" = getField r "status" := by
  have hdef : applyPatch r none w =
      if truthy w then setField r "workerAssigned" (w.getD "") else r := rfl
  rw [hdef]
  by_cases hw : truthy w
  · rw [if_pos hw, getField_setField_ne _ _ _ _ (by decide)]
  · rw [if_neg hw]

theorem getField_applyPatch_wA_none (r : Rec) (s : Option String) :
    getField (applyPatch r s none) "workerAssigned" = getField r "workerAssigned" := by
  have hdef : applyPatch r s none =
      if truthy s then setField r "status" (s.getD "") else r := rfl
  rw [hdef]
  by_cases hs : truthy s
  · rw [if_pos hs, getField_setField_ne _ _ _ _ (by decide)]
  · rw [if_neg hs]

/-! Route-level lemmas. -/

theorem updateStatus_dispatch (st : Store) (id : String) (s w : Option String)
    (n p : String) (hdisp : dispatchPath id = some p) :
    updateStatus st id s w n = updateStatusOn st p id s w n := by
  by_cases h1 : strStartsWith id "CHAT-" = true
  · have hp : p = chatsPath := by
      simp [dispatchPath, h1] at hdisp
      exact hdisp.symm
    subst hp
    simp [updateStatus, h1]
  · by_cases h2 : strStartsWith id "SIGNUP-" = true
    · have hp : p = signupsPath := by
        simp [dispatchPath, h1, h2] at hdisp
        exact hdisp.symm
      subst hp
      simp [updateStatus, h1, h2]
    · simp [dispatchPath, h1, h2] at hdisp

theorem updateStatusOn_not_found (st : Store) (fp id : String)
    (s w : Option String) (n : String)
    (hnone : ∀ r ∈ (readStore st fp).1, getField r "id" ≠ some id) :
    updateStatusOn st fp id s w n =
      (⟨404, .message "Item not found"⟩, st, [.read fp]) := by
  have hnone' : ∀ r ∈ (readStore st fp).1,
      (fun q => getField q "id" == some id) r = false := by
    intro r hr
    simpa using hnone r hr
  unfold updateStatusOn
  simp only []
  rw [jsFindIndex_eq_none _ _ hnone']

theorem updateStatusOn_found (st : Store) (fp id : String)
    (s w : Option String) (n : String) (i : Nat)
    (hfind : jsFindIndex (fun q => getField q "id" == some id)
      (readStore st fp).1 = some i) :
    updateStatusOn st fp id s w n =
      (⟨200, .record (((readStore st fp).1.set i
          (applyPatch ((readStore st fp).1.getD i []) s w)).getD i [])⟩,
        setStore st fp ⟨(readStore st fp).1.set i
          (applyPatch ((readStore st fp).1.getD i []) s w), n⟩,
        [.read fp, .write fp]) := by
  unfold updateStatusOn
  simp only []
  rw [hfind]
  simp only []
  rw [updateFileInRepo_current]

theorem generateId_pattern_aux (pfx : String) (ds : Fin 6 → Fin 36) :
    ∃ code : String,
      generateId pfx ds = toUpperStr pfx ++ "-" ++ code ∧
      code.length = 6 ∧
      ∀ c ∈ code.data, c ∈ alphabetChars ∧
        (('0' ≤ c ∧ c ≤ '9') ∨ ('A' ≤ c ∧ c ≤ 'Z')) := by
  refine ⟨codeOfDigits ds, rfl, ?_, ?_⟩
  · simp [codeOfDigits, String.length]
  · intro c hc
    have hmem : c ∈ alphabetChars := by
      have hdata : (codeOfDigits ds).data =
          (List.finRange 6).map
            (fun i => alphabetChars.get (Fin.cast (by decide) (ds i))) := rfl
      rw [hdata] at hc
      rcases List.mem_map.mp hc with ⟨i, _, hi⟩
      rw [← hi]
      exact List.get_mem _ _ _
    have hall : ∀ c ∈ alphabetChars,
        (('0' ≤ c ∧ c ≤ '9') ∨ ('A' ≤ c ∧ c ≤ 'Z')) := by decide
    exact ⟨hmem, hall c hmem⟩

/-! Claim theorems. -/

/-- C1: evaluated at a conflicting interleaving (the chats document was
read at hash `shaA` and concurrently advanced to `shaB` before the
write), the `POST /api/chats` handler performs exactly one read and one
conditional write attempt, answers 500 immediately, and the booking it
built is absent from the final chats document: no retry from the read
step ever happens, contrary to the claimed bounded retry loop. -/
theorem c1_conflict_no_retry :
    postChatsRaced stChatsOne stChatsRaced [("customerName", "Asha")] ds0
        "2026-01-01T00:00:00Z" "shaC" =
      (⟨500, .message "Error creating booking"⟩, stChatsRaced,
        [.read chatsPath, .write chatsPath]) ∧
    ((readStore stChatsRaced chatsPath).1.all
      (fun r => getField r "id" != some (generateId "CHAT" ds0))) = true := by
  constructor
  · rfl
  · decide

/-- C2 counterexample: a network failure (an axios error with no
response) is re-thrown by `getFileFromRepo`, not converted to the empty
collection, refuting the claim that every fetch failure degrades to an
empty collection. -/
theorem c2_counterexample :
    getFileFromRepo (FetchOutcome.failure AxiosError.network) =
        Except.error AxiosError.network ∧
    getFileFromRepo (FetchOutcome.failure AxiosError.network) ≠
        Except.ok ([], none) := by
  refine ⟨rfl, ?_⟩
  intro h
  exact Except.noConfusion h

/-- C2 (amended): only a 404 failure is converted to the empty
collection; every other fetch failure (network, auth, rate limit, any
non-404 HTTP error) is re-thrown to the caller. -/
theorem c2_non404_rethrown (e : AxiosError) (h : e ≠ AxiosError.http 404) :
    getFileFromRepo (FetchOutcome.failure e) = Except.error e := by
  cases e with
  | network => rfl
  | http s =>
    have hs : s ≠ 404 := fun h' => h (by rw [h'])
    simp [getFileFromRepo, is404, hs]

/-- C2 witness: a 500 response from the remote store is surfaced as an
error. -/
theorem c2_non404_rethrown_witness :
    getFileFromRepo (FetchOutcome.failure (AxiosError.http 500)) =
        Except.error (AxiosError.http 500) :=
  c2_non404_rethrown (AxiosError.http 500) (by decide)

/-- C3: when the remote store reports not-found for the collection
document — a 404 fetch failure, or equivalently a document that was
never created — the read returns the empty record sequence and an absent
integrity token instead of an error. -/
theorem c3_bootstrap_empty (e : AxiosError) (st : Store) (p : String)
    (h404 : is404 e = true) (habsent : st p = none) :
    getFileFromRepo (FetchOutcome.failure e) = Except.ok ([], none) ∧
    readStore st p = ([], none) := by
  constructor
  · simp [getFileFromRepo, h404]
  · simp [readStore, habsent]

/-- C3 witness: a 404 on the chats document of the store that holds
nothing bootstraps to the empty collection. -/
theorem c3_bootstrap_empty_witness :
    getFileFromRepo (FetchOutcome.failure (AxiosError.http 404)) =
        Except.ok ([], none) ∧
    readStore stEmpty chatsPath = ([], none) :=
  c3_bootstrap_empty (AxiosError.http 404) stEmpty chatsPath rfl rfl

/-- C7: every id the generator produces is the uppercased prefix, a
hyphen, and exactly six characters drawn from the 0-9 A-Z alphabet; the
generator never consults existing ids (it does not even receive the
store). -/
theorem c7_id_pattern (pfx : String) (ds : Fin 6 → Fin 36) :
    ∃ code : String,
      generateId pfx ds = toUpperStr pfx ++ "-" ++ code ∧
      code.length = 6 ∧
      ∀ c ∈ code.data, c ∈ alphabetChars ∧
        (('0' ≤ c ∧ c ≤ '9') ∨ ('A' ≤ c ∧ c ≤ 'Z')) :=
  generateId_pattern_aux pfx ds

/-- C7 witness: the pattern at the lowercase prefix `chat` and the
all-zero randomness. -/
theorem c7_id_pattern_witness :
    ∃ code : String,
      generateId "chat" ds0 = toUpperStr "chat" ++ "-" ++ code ∧
      code.length = 6 ∧
      ∀ c ∈ code.data, c ∈ alphabetChars ∧
        (('0' ≤ c ∧ c ≤ '9') ∨ ('A' ≤ c ∧ c ≤ 'Z')) :=
  c7_id_pattern "chat" ds0

/-- C9: a list read leaves the store untouched, two consecutive list
reads with no intervening write return the same sequence, and the
sequence returned is a function of the stored document alone. -/
theorem c9_idempotent_read (st st' : Store) (p : String)
    (h : st p = st' p) :
    (listCollection st p).2.1 = st ∧
    (listCollection ((listCollection st p).2.1) p).1 =
      (listCollection st p).1 ∧
    (listCollection st p).1 = (listCollection st' p).1 := by
  refine ⟨rfl, rfl, ?_⟩
  simp [listCollection, readStore, h]

/-- C9 witness: two stores that agree on the chats document yield the
same listing, and reading does not change the store. -/
theorem c9_idempotent_read_witness :
    (listCollection stAgreeA chatsPath).2.1 = stAgreeA ∧
    (listCollection ((listCollection stAgreeA chatsPath).2.1) chatsPath).1 =
      (listCollection stAgreeA chatsPath).1 ∧
    (listCollection stAgreeA chatsPath).1 =
      (listCollection stAgreeB chatsPath).1 :=
  c9_idempotent_read stAgreeA stAgreeB chatsPath rfl

/-- C10: an id starting with neither `CHAT-` nor `SIGNUP-` is answered
with 400 `Invalid ID prefix`, the store is returned unchanged, and the
empty effect trace shows no store read or write was performed. -/
theorem c10_invalid_prefix_rejected (st : Store) (id : String)
    (s w : Option String) (n : String)
    (h1 : strStartsWith id "CHAT-" = false)
    (h2 : strStartsWith id "SIGNUP-" = false) :
    updateStatus st id s w n =
      (⟨400, .message "Invalid ID prefix"⟩, st, []) := by
  simp [updateStatus, h1, h2]

/-- C10 witness: a `WORKER-` id is rejected without touching the empty
store. -/
theorem c10_invalid_prefix_rejected_witness :
    updateStatus stEmpty "WORKER-123ABC" (some "Confirmed") none "s9" =
      (⟨400, .message "Invalid ID prefix"⟩, stEmpty, []) :=
  c10_invalid_prefix_rejected stEmpty "WORKER-123ABC" (some "Confirmed") none
    "s9" (by decide) (by decide)

/-- C5: when the id dispatches to a collection (chats or signups) in
which no record carries that id, the update route answers 404
`Item not found`, the store is returned unchanged (a subsequent list
reads the same sequence), and the effect trace shows a single read and
no write. -/
theorem c5_update_missing_id (st : Store) (id : String) (s w : Option String)
    (n p : String) (hdisp : dispatchPath id = some p)
    (hnone : ∀ r ∈ (readStore st p).1, getField r "id" ≠ some id) :
    updateStatus st id s w n =
      (⟨404, .message "Item not found"⟩, st, [.read p]) := by
  rw [updateStatus_dispatch st id s w n p hdisp]
  exact updateStatusOn_not_found st p id s w n hnone

/-- C5 witness: updating id `CHAT-ZZZZZZ` against a chats collection
holding only `CHAT-AAAAAA` answers 404 and leaves the store as it was. -/
theorem c5_update_missing_id_witness :
    updateStatus stC6 "CHAT-ZZZZZZ" (some "Confirmed") none "s2" =
      (⟨404, .message "Item not found"⟩, stC6, [.read chatsPath]) :=
  c5_update_missing_id stC6 "CHAT-ZZZZZZ" (some "Confirmed") none "s2"
    chatsPath (by decide) (by decide)

/-- C6: updating an existing record patches only the matched record in
place: the response is 200 with the patched record, the written-back
document is the old sequence with only position `i` replaced, every
other collection document is untouched, every other record is unchanged,
every field of the matched record other than `status` and
`workerAssigned` keeps its value, and each of the two patchable fields
is unchanged when absent from the patch. -/
theorem c6_update_frame (st : Store) (id : String) (s w : Option String)
    (n p : String) (i : Nat) (data : List Rec) (r r' : Rec)
    (hdisp : dispatchPath id = some p)
    (hdata : data = (readStore st p).1)
    (hfind : jsFindIndex (fun q => getField q "id" == some id) data = some i)
    (hr : r = data.getD i [])
    (hr' : r' = applyPatch r s w) :
    (updateStatus st id s w n).1 = ⟨200, .record r'⟩ ∧
    readStore (updateStatus st id s w n).2.1 p = (data.set i r', some n) ∧
    (∀ q, q ≠ p → (updateStatus st id s w n).2.1 q = st q) ∧
    (∀ j, j ≠ i → (data.set i r').getD j [] = data.getD j []) ∧
    (∀ k, k ≠ "status" → k ≠ "workerAssigned" → getField r' k = getField r k) ∧
    (s = none → getField r' "status" = getField r "status") ∧
    (w = none → getField r' "workerAssigned" = getField r "workerAssigned") := by
  subst hdata
  subst hr
  subst hr'
  have hlen : i < (readStore st p).1.length :=
    jsFindIndex_lt_length _ _ _ hfind
  rw [updateStatus_dispatch st id s w n p hdisp,
    updateStatusOn_found st p id s w n i hfind]
  refine ⟨?_, ?_, ?_, ?_, ?_, ?_, ?_⟩
  · rw [getD_set_self _ _ _ _ hlen]
  · rw [readStore_setStore_self]
  · intro q hq
    exact setStore_ne st p _ q hq
  · intro j hj
    exact getD_set_ne _ _ _ _ _ hj
  · intro k h1 h2
    exact getField_applyPatch_ne _ _ _ _ h1 h2
  · intro hs
    subst hs
    exact getField_applyPatch_status_none _ _
  · intro hw
    subst hw
    exact getField_applyPatch_wA_none _ _

/-- C6 witness: confirming booking `CHAT-AAAAAA` and assigning `Ravi`
answers 200 with the patched record. -/
theorem c6_update_frame_witness :
    (updateStatus stC6 "CHAT-AAAAAA" (some "Confirmed") (some "Ravi") "s2").1 =
      ⟨200, .record (applyPatch recC6 (some "Confirmed") (some "Ravi"))⟩ :=
  (c6_update_frame stC6 "CHAT-AAAAAA" (some "Confirmed") (some "Ravi") "s2"
    chatsPath 0 [recC6] recC6 (applyPatch recC6 (some "Confirmed") (some "Ravi"))
    (by decide) rfl (by decide) rfl rfl).1

/-! Lemmas about the two append handlers. -/

theorem postChats_eq (st : Store) (body : Rec) (ds : Fin 6 → Fin 36)
    (now newSha : String) :
    postChats st body ds now newSha =
      (⟨201, .record (mkChatBooking body (generateId "CHAT" ds) now)⟩,
        setStore st chatsPath ⟨(readStore st chatsPath).1 ++
          [mkChatBooking body (generateId "CHAT" ds) now], newSha⟩,
        [.read chatsPath, .write chatsPath]) := by
  unfold postChats postChatsRaced
  simp only []
  rw [updateFileInRepo_current]

theorem postSignups_eq (st : Store) (body : Rec) (ds : Fin 6 → Fin 36)
    (now newSha : String) :
    postSignups st body ds now newSha =
      (⟨201, .record (mkSignup body (generateId "SIGNUP" ds) now)⟩,
        setStore st signupsPath ⟨(readStore st signupsPath).1 ++
          [mkSignup body (generateId "SIGNUP" ds) now], newSha⟩,
        [.read signupsPath, .write signupsPath]) := by
  unfold postSignups
  simp only []
  rw [updateFileInRepo_current]

theorem getField_addTimestamp_self (body : Rec) (now : String) :
    getField (addTimestamp body now) "timestamp" = some now :=
  getField_setField_self body "timestamp" now

theorem getField_addTimestamp_ne (body : Rec) (now k : String)
    (h : k ≠ "timestamp") :
    getField (addTimestamp body now) k = getField body k :=
  getField_setField_ne body "timestamp" k now h

theorem keysNodup_addTimestamp (body : Rec) (now : String)
    (hnd : keysNodup body) : keysNodup (addTimestamp body now) :=
  keysNodup_setField body "timestamp" now hnd

theorem getField_mkChatBooking_id (body : Rec) (gen now : String)
    (hid : getField body "id" = none) :
    getField (mkChatBooking body gen now) "id" = some gen := by
  unfold mkChatBooking
  rw [getField_setField_ne _ "workerAssigned" "id" _ (by decide),
    getField_setField_ne _ "status" "id" _ (by decide)]
  have hbody' : getField (addTimestamp body now) "id" = none := by
    rw [getField_addTimestamp_ne body now "id" (by decide)]
    exact hid
  rw [getField_spreadInto_of_none _ _ hbody']
  exact getField_cons_of_pos ("id", gen) [] "id" rfl

theorem getField_mkChatBooking_status (body : Rec) (gen now : String) :
    getField (mkChatBooking body gen now) "status" = some "Pending" := by
  unfold mkChatBooking
  rw [getField_setField_ne _ "workerAssigned" "status" _ (by decide),
    getField_setField_self]

theorem getField_mkChatBooking_wA (body : Rec) (gen now : String) :
    getField (mkChatBooking body gen now) "workerAssigned" = some "" := by
  unfold mkChatBooking
  rw [getField_setField_self]

theorem getField_mkChatBooking_timestamp (body : Rec) (gen now : String)
    (hnd : keysNodup body) :
    getField (mkChatBooking body gen now) "timestamp" = some now := by
  unfold mkChatBooking
  rw [getField_setField_ne _ "workerAssigned" "timestamp" _ (by decide),
    getField_setField_ne _ "status" "timestamp" _ (by decide)]
  rw [getField_spreadInto_of_some _ _ _ (keysNodup_addTimestamp body now hnd)
    (getField_addTimestamp_self body now)]

theorem getField_mkChatBooking_other (body : Rec) (gen now k : String)
    (hnd : keysNodup body) (h1 : k ≠ "id") (h2 : k ≠ "timestamp")
    (h3 : k ≠ "status") (h4 : k ≠ "workerAssigned") :
    getField (mkChatBooking body gen now) k = getField body k := by
  unfold mkChatBooking
  rw [getField_setField_ne _ "workerAssigned" k _ h4,
    getField_setField_ne _ "status" k _ h3]
  have hbk : getField (addTimestamp body now) k = getField body k :=
    getField_addTimestamp_ne body now k h2
  cases hb : getField body k with
  | none =>
    rw [getField_spreadInto_of_none _ _ (by rw [hbk]; exact hb)]
    rw [getField_cons_of_neg ("id", gen) [] k
      (by simp only [beq_iff_eq]; exact fun hh => h1 hh.symm)]
    rfl
  | some v =>
    rw [getField_spreadInto_of_some _ _ _ (keysNodup_addTimestamp body now hnd)
      (by rw [hbk]; exact hb)]

theorem getField_mkSignup_id (body : Rec) (gen now : String)
    (hid : getField body "id" = none) :
    getField (mkSignup body gen now) "id" = some gen := by
  unfold mkSignup
  rw [getField_setField_ne _ "status" "id" _ (by decide)]
  have hbody' : getField (addTimestamp body now) "id" = none := by
    rw [getField_addTimestamp_ne body now "id" (by decide)]
    exact hid
  rw [getField_spreadInto_of_none _ _ hbody']
  exact getField_cons_of_pos ("id", gen) [] "id" rfl

theorem getField_mkSignup_status (body : Rec) (gen now : String) :
    getField (mkSignup body gen now) "status" = some "Pending Review" := by
  unfold mkSignup
  rw [getField_setField_self]

theorem getField_mkSignup_timestamp (body : Rec) (gen now : String)
    (hnd : keysNodup body) :
    getField (mkSignup body gen now) "timestamp" = some now := by
  unfold mkSignup
  rw [getField_setField_ne _ "status" "timestamp" _ (by decide)]
  rw [getField_spreadInto_of_some _ _ _ (keysNodup_addTimestamp body now hnd)
    (getField_addTimestamp_self body now)]

theorem getField_mkSignup_other (body : Rec) (gen now k : String)
    (hnd : keysNodup body) (h1 : k ≠ "id") (h2 : k ≠ "timestamp")
    (h3 : k ≠ "status") :
    getField (mkSignup body gen now) k = getField body k := by
  unfold mkSignup
  rw [getField_setField_ne _ "status" k _ h3]
  have hbk : getField (addTimestamp body now) k = getField body k :=
    getField_addTimestamp_ne body now k h2
  cases hb : getField body k with
  | none =>
    rw [getField_spreadInto_of_none _ _ (by rw [hbk]; exact hb)]
    rw [getField_cons_of_neg ("id", gen) [] k
      (by simp only [beq_iff_eq]; exact fun hh => h1 hh.symm)]
    rfl
  | some v =>
    rw [getField_spreadInto_of_some _ _ _ (keysNodup_addTimestamp body now hnd)
      (by rw [hbk]; exact hb)]

theorem generateId_CHAT_starts (ds : Fin 6 → Fin 36) :
    strStartsWith (generateId "CHAT" ds) "CHAT-" = true := rfl

theorem generateId_SIGNUP_starts (ds : Fin 6 → Fin 36) :
    strStartsWith (generateId "SIGNUP" ds) "SIGNUP-" = true := rfl

/-- C4 counterexample: a request body that itself carries an `id` field
overrides the generated id in the object literal spread, so the record
returned with 201 has id `EVIL`, which is not prefixed `CHAT-`, refuting
the claim for every request body. -/
theorem c4_counterexample :
    (postChats stEmpty bodyEvil ds0 "2026-01-01T00:00:00Z" "s1").1 =
      ⟨201, .record [("id", "EVIL"), ("customerName", "Asha"),
        ("timestamp", "2026-01-01T00:00:00Z"), ("status", "Pending"),
        ("workerAssigned", "")]⟩ ∧
    getField [("id", "EVIL"), ("customerName", "Asha"),
        ("timestamp", "2026-01-01T00:00:00Z"), ("status", "Pending"),
        ("workerAssigned", "")] "id" = some "EVIL" ∧
    strStartsWith "EVIL" "CHAT-" = false := by
  refine ⟨?_, ?_, ?_⟩ <;> decide

/-- C4 (amended): for every request body that does not itself carry an
`id` field, `POST /api/chats` answers 201 with the booking it committed:
fresh `CHAT-` id, server-assigned timestamp, status `Pending`,
`workerAssigned` empty, every other caller field preserved, the record
appended at the end of the chats document, and no other document
touched. -/
theorem c4_append_committed (st : Store) (body : Rec) (ds : Fin 6 → Fin 36)
    (now newSha : String) (hid : getField body "id" = none)
    (hnd : keysNodup body) :
    (postChats st body ds now newSha).1 =
      ⟨201, .record (mkChatBooking body (generateId "CHAT" ds) now)⟩ ∧
    readStore (postChats st body ds now newSha).2.1 chatsPath =
      ((readStore st chatsPath).1 ++
        [mkChatBooking body (generateId "CHAT" ds) now], some newSha) ∧
    (∀ q, q ≠ chatsPath → (postChats st body ds now newSha).2.1 q = st q) ∧
    getField (mkChatBooking body (generateId "CHAT" ds) now) "id" =
      some (generateId "CHAT" ds) ∧
    strStartsWith (generateId "CHAT" ds) "CHAT-" = true ∧
    getField (mkChatBooking body (generateId "CHAT" ds) now) "status" =
      some "Pending" ∧
    getField (mkChatBooking body (generateId "CHAT" ds) now) "workerAssigned" =
      some "" ∧
    getField (mkChatBooking body (generateId "CHAT" ds) now) "timestamp" =
      some now ∧
    (∀ k, k ≠ "id" → k ≠ "timestamp" → k ≠ "status" → k ≠ "workerAssigned" →
      getField (mkChatBooking body (generateId "CHAT" ds) now) k =
        getField body k) := by
  rw [postChats_eq]
  refine ⟨rfl, ?_, ?_, ?_, ?_, ?_, ?_, ?_, ?_⟩
  · rw [readStore_setStore_self]
  · intro q hq
    exact setStore_ne st chatsPath _ q hq
  · exact getField_mkChatBooking_id body _ now hid
  · exact generateId_CHAT_starts ds
  · exact getField_mkChatBooking_status body _ now
  · exact getField_mkChatBooking_wA body _ now
  · exact getField_mkChatBooking_timestamp body _ now hnd
  · intro k h1 h2 h3 h4
    exact getField_mkChatBooking_other body _ now k hnd h1 h2 h3 h4

/-- C4 witness: a well-formed booking body on the empty store is
answered with 201 carrying exactly the committed record. -/
theorem c4_append_committed_witness :
    (postChats stEmpty bodyAsha ds0 "2026-01-01T00:00:00Z" "s1").1 =
      ⟨201, .record (mkChatBooking bodyAsha (generateId "CHAT" ds0)
        "2026-01-01T00:00:00Z")⟩ :=
  (c4_append_committed stEmpty bodyAsha ds0 "2026-01-01T00:00:00Z" "s1"
    (by decide) (by decide)).1

/-- C8 counterexample: a signup body that itself carries an `id` field
overrides the generated id, so the 201 record has id `FAKE`, which is
not prefixed `SIGNUP-`, refuting the claim for every request body. -/
theorem c8_counterexample :
    (postSignups stEmpty bodyFake ds0 "2026-01-01T00:00:00Z" "s1").1 =
      ⟨201, .record [("id", "FAKE"), ("name", "Ravi"),
        ("timestamp", "2026-01-01T00:00:00Z"), ("status", "Pending Review")]⟩ ∧
    getField [("id", "FAKE"), ("name", "Ravi"),
        ("timestamp", "2026-01-01T00:00:00Z"), ("status", "Pending Review")]
      "id" = some "FAKE" ∧
    strStartsWith "FAKE" "SIGNUP-" = false := by
  refine ⟨?_, ?_, ?_⟩ <;> decide

/-- C8 (amended): for every request body that does not itself carry an
`id` field, `POST /api/signups` answers 201 with the record it
committed: fresh `SIGNUP-` id, status `Pending Review`, server-assigned
timestamp, every other caller field preserved, and the record appended
at the end of the signups document. -/
theorem c8_signup_committed (st : Store) (body : Rec) (ds : Fin 6 → Fin 36)
    (now newSha : String) (hid : getField body "id" = none)
    (hnd : keysNodup body) :
    (postSignups st body ds now newSha).1 =
      ⟨201, .record (mkSignup body (generateId "SIGNUP" ds) now)⟩ ∧
    readStore (postSignups st body ds now newSha).2.1 signupsPath =
      ((readStore st signupsPath).1 ++
        [mkSignup body (generateId "SIGNUP" ds) now], some newSha) ∧
    getField (mkSignup body (generateId "SIGNUP" ds) now) "id" =
      some (generateId "SIGNUP" ds) ∧
    strStartsWith (generateId "SIGNUP" ds) "SIGNUP-" = true ∧
    getField (mkSignup body (generateId "SIGNUP" ds) now) "status" =
      some "Pending Review" ∧
    getField (mkSignup body (generateId "SIGNUP" ds) now) "timestamp" =
      some now ∧
    (∀ k, k ≠ "id" → k ≠ "timestamp" → k ≠ "status" →
      getField (mkSignup body (generateId "SIGNUP" ds) now) k =
        getField body k) := by
  rw [postSignups_eq]
  refine ⟨rfl, ?_, ?_, ?_, ?_, ?_, ?_⟩
  · rw [readStore_setStore_self]
  · exact getField_mkSignup_id body _ now hid
  · exact generateId_SIGNUP_starts ds
  · exact getField_mkSignup_status body _ now
  · exact getField_mkSignup_timestamp body _ now hnd
  · intro k h1 h2 h3
    exact getField_mkSignup_other body _ now k hnd h1 h2 h3

/-- C8 witness: a well-formed signup body on the empty store is answered
with 201 carrying exactly the committed record. -/
theorem c8_signup_committed_witness :
    (postSignups stEmpty bodyRavi ds0 "2026-01-01T00:00:00Z" "s1").1 =
      ⟨201, .record (mkSignup bodyRavi (generateId "SIGNUP" ds0)
        "2026-01-01T00:00:00Z")⟩ :=
  (c8_signup_committed stEmpty bodyRavi ds0 "2026-01-01T00:00:00Z" "s1"
    (by decide) (by decide)).1
